import Mathlib

/-
Verification of the gridtext paragraph-layout engine (src/src/par-box.h,
src/src/layout.h) against its natural-language specification.

Modelling conventions:
* C++ `double` (the `Length` type and all demerit arithmetic) is modelled as `ℚ`.
  All concrete inputs used below are exactly representable, and the control flow
  of the modelled functions only uses comparisons, field arithmetic and a final
  double→int truncation, so `ℚ` is a faithful model on these inputs.
* `vector`/`list` become `List`; out-of-range `operator[]` accesses (undefined in
  C++) are modelled with `List.getD` and a default node, and all theorems about
  indexing carry in-range hypotheses.
* The headers `length.h`, `glue.h`, `penalty.h`, `grid.h` of this repository are
  not among the provided sources; the node variants (box / glue / penalty with
  their fields) and the numeric `infinity` sentinel they declare are modelled
  from the spec (see the doc comments marked "Modelled from the spec").
-/

namespace Gridtext

/-- Modelled from the spec (§3 data model; layout.h / glue.h / penalty.h are not
among the provided sources): a layout node is a box (width, ascent, descent),
glue (width, stretch, shrink), or a penalty (rendered width, cost, flagged bit).
All lengths/costs are doubles in C++, modelled as `ℚ`. -/
inductive LNode : Type where
  | box : ℚ → ℚ → ℚ → LNode
  | glue : ℚ → ℚ → ℚ → LNode
  | penalty : ℚ → ℚ → Bool → LNode
  deriving DecidableEq

/-- Modelled from the spec (§3, §7): the numeric sentinel `infinity` declared by
the missing glue.h / penalty.h headers ("a named constant with an explicit,
documented magnitude"). A penalty `< infinity` is breakable, a penalty
`≤ -infinity` is a forced break, and the same sentinel is the saturating
adjustment-ratio value. The concrete magnitude is irrelevant to every theorem
below except that it is positive. -/
def infinity : ℚ := 10000

/-- Default node used to model C++ `operator[]` out-of-range reads (which are
undefined behavior in the source); no theorem depends on its value. -/
def nodeD : LNode := LNode.box 0 0 0

/-- The node's `width()`: entry of the `w` vector in `compute_breaks`. -/
def node_w : LNode → ℚ
  | LNode.box w _ _ => w
  | LNode.glue w _ _ => w
  | LNode.penalty w _ _ => w

/-- Entry of the `y` (stretch) vector in `compute_breaks`: glue stretch, else 0. -/
def node_y : LNode → ℚ
  | LNode.glue _ s _ => s
  | _ => 0

/-- Entry of the `z` (shrink) vector in `compute_breaks`: glue shrink, else 0. -/
def node_z : LNode → ℚ
  | LNode.glue _ _ s => s
  | _ => 0

/-- Entry of the `p` (penalty cost) vector in `compute_breaks`. -/
def node_p : LNode → ℚ
  | LNode.penalty _ c _ => c
  | _ => 0

/-- Entry of the `f` (flagged) vector in `compute_breaks`. -/
def node_f : LNode → Bool
  | LNode.penalty _ _ fl => fl
  | _ => false

/-- `ParBox::is_feasible_breakpoint` (par-box.h lines 154-169): position `i` is
a feasible breakpoint if the node is a penalty with cost below `infinity`, or if
`i > 0`, the node is glue, and the previous node is a box. -/
def is_feasible_breakpoint (nodes : List LNode) (i : ℕ) : Bool :=
  match nodes.getD i nodeD with
  | LNode.penalty _ p _ => decide (p < infinity)
  | LNode.glue _ _ _ =>
    if 0 < i then
      match nodes.getD (i - 1) nodeD with
      | LNode.box _ _ _ => true
      | _ => false
    else false
  | _ => false

/-- `ParBox::is_forced_break` (par-box.h lines 171-180): a penalty with cost
`≤ -infinity` is a forced break. -/
def is_forced_break (nodes : List LNode) (i : ℕ) : Bool :=
  match nodes.getD i nodeD with
  | LNode.penalty _ p _ => decide (p ≤ -infinity)
  | _ => false

/-- `m_sum_widths[i]` (par-box.h lines 274-289): sum of widths of nodes `0..i-1`. -/
def sum_widths (nodes : List LNode) (i : ℕ) : ℚ :=
  ((nodes.take i).map node_w).sum

/-- `m_sum_stretch[i]`: sum of stretches of nodes `0..i-1`. -/
def sum_stretch (nodes : List LNode) (i : ℕ) : ℚ :=
  ((nodes.take i).map node_y).sum

/-- `m_sum_shrink[i]`: sum of shrinks of nodes `0..i-1`. -/
def sum_shrink (nodes : List LNode) (i : ℕ) : ℚ :=
  ((nodes.take i).map node_z).sum

/-- `ParBox::measure_width` (par-box.h line 182). -/
def measure_width (nodes : List LNode) (i1 i2 : ℕ) : ℚ :=
  sum_widths nodes i2 - sum_widths nodes i1

/-- `ParBox::measure_stretch` (par-box.h line 186). -/
def measure_stretch (nodes : List LNode) (i1 i2 : ℕ) : ℚ :=
  sum_stretch nodes i2 - sum_stretch nodes i1

/-- `ParBox::measure_shrink` (par-box.h line 190). -/
def measure_shrink (nodes : List LNode) (i1 i2 : ℕ) : ℚ :=
  sum_shrink nodes i2 - sum_shrink nodes i1

/-- The candidate line's length in `compute_adjustment_ratio` (par-box.h lines
195-200): the measured width from `i1` to `i2`, plus the breaking penalty's own
rendered width when node `i2` is a penalty. -/
def adj_len (nodes : List LNode) (i1 i2 : ℕ) : ℚ :=
  match nodes.getD i2 nodeD with
  | LNode.penalty w _ _ => measure_width nodes i1 i2 + w
  | _ => measure_width nodes i1 i2

/-- The available length of the current line in `compute_adjustment_ratio`
(par-box.h lines 205-210): `line_lengths[line]` if in range, else the last
entry. -/
def avail_len (line_lengths : List ℚ) (line : ℕ) : ℚ :=
  if line < line_lengths.length then line_lengths.getD line 0
  else line_lengths.getLastD 0

/-- `ParBox::compute_adjustment_ratio` (par-box.h lines 194-231). -/
def compute_adjustment_ratio (nodes : List LNode) (i1 i2 line : ℕ)
    (line_lengths : List ℚ) : ℚ :=
  let len := adj_len nodes i1 i2
  let len_avail := avail_len line_lengths line
  if len < len_avail then
    if 0 < measure_stretch nodes i1 i2 then
      (len_avail - len) / measure_stretch nodes i1 i2
    else infinity
  else if len_avail < len then
    if 0 < measure_shrink nodes i1 i2 then
      (len_avail - len) / measure_shrink nodes i1 i2
    else infinity
  else 0

/-- Truncation toward zero: the C++ implicit `double` → `int` conversion used
when a freshly computed (double) demerits value is stored into the `int`
`Breakpoint::demerits` field. -/
def truncQ (q : ℚ) : ℤ :=
  if q < 0 then -(⌊-q⌋) else ⌊q⌋

/-- The fitness classification of par-box.h lines 333-337: class 0 for
`r < -0.5`, 1 for `r ≤ 0.5`, 2 for `r ≤ 1`, else 3. -/
def fitness_of (r : ℚ) : ℤ :=
  if r < -(1/2) then 0
  else if r ≤ 1/2 then 1
  else if r ≤ 1 then 2
  else 3

/-- `ParBox::Breakpoint` (par-box.h lines 43-57): position, line number,
fitness class, cumulative width/stretch/shrink totals, demerits (an `int` in
the C++), and an optional pointer to the preceding breakpoint (defaulted to
null in the constructor). -/
inductive Breakpoint : Type where
  | mk : ℕ → ℕ → ℤ → ℚ → ℚ → ℚ → ℤ → Option Breakpoint → Breakpoint

/-- Field `Breakpoint::position`. -/
def Breakpoint.position : Breakpoint → ℕ
  | .mk p _ _ _ _ _ _ _ => p

/-- Field `Breakpoint::line`. -/
def Breakpoint.line : Breakpoint → ℕ
  | .mk _ l _ _ _ _ _ _ => l

/-- Field `Breakpoint::fitness_class`. -/
def Breakpoint.fitness_class : Breakpoint → ℤ
  | .mk _ _ fc _ _ _ _ _ => fc

/-- Field `Breakpoint::totalwidth`. -/
def Breakpoint.totalwidth : Breakpoint → ℚ
  | .mk _ _ _ tw _ _ _ _ => tw

/-- Field `Breakpoint::totalstretch`. -/
def Breakpoint.totalstretch : Breakpoint → ℚ
  | .mk _ _ _ _ ts _ _ _ => ts

/-- Field `Breakpoint::totalshrink`. -/
def Breakpoint.totalshrink : Breakpoint → ℚ
  | .mk _ _ _ _ _ tz _ _ => tz

/-- Field `Breakpoint::demerits`. -/
def Breakpoint.demerits : Breakpoint → ℤ
  | .mk _ _ _ _ _ _ d _ => d

/-- Field `Breakpoint::previous`. -/
def Breakpoint.previous : Breakpoint → Option Breakpoint
  | .mk _ _ _ _ _ _ _ pr => pr

/-- The sentinel breakpoint seeded at the start of the scan (par-box.h line
294): position 0, line 0, fitness class 1, zero totals, zero demerits, no
predecessor. -/
def bp0 : Breakpoint := Breakpoint.mk 0 0 1 0 0 0 0 none

/-- The walk of par-box.h lines 380-384: positions along the `previous` chain,
starting at the given breakpoint. -/
def chain_positions : Breakpoint → List ℕ
  | .mk p _ _ _ _ _ _ none => [p]
  | .mk p _ _ _ _ _ _ (some b) => p :: chain_positions b

/-- The second loop of `ParBox::add_active_node` (par-box.h lines 74-79): scan
the consecutive run of nodes whose line number equals the new node's, looking
for one that also matches its fitness class and position. -/
def has_dup_node (n : Breakpoint) : List Breakpoint → Bool
  | [] => false
  | b :: rest =>
    if b.line = n.line then
      if b.fitness_class = n.fitness_class ∧ b.position = n.position then true
      else has_dup_node n rest
    else false

/-- `ParBox::add_active_node` (par-box.h lines 63-82): walk past all entries
with a smaller line number, then drop the new node if an entry with the same
(line, fitness class, position) is already present, otherwise insert the new
node before the first entry whose line number is not smaller. -/
def add_active_node : List Breakpoint → Breakpoint → List Breakpoint
  | [], n => [n]
  | b :: rest, n =>
    if b.line < n.line then b :: add_active_node rest n
    else if has_dup_node n (b :: rest) then b :: rest
    else n :: b :: rest

/-- The candidate breakpoint recorded at par-box.h lines 318-349 for a feasible
line from active node `a` to position `i` with adjustment ratio `r`: demerits
are computed (lines 321-342), and the new `Breakpoint` is constructed with the
constructor arguments actually passed at lines 345-349 — note the C++ passes
only the line's own demerits (not `a`'s cumulative demerits) and omits the
`previous` argument, which therefore defaults to null. -/
def mk_candidate (nodes : List LNode) (fitness_demerit flagged_demerit : ℚ)
    (i : ℕ) (a : Breakpoint) (r : ℚ) : Breakpoint :=
  let d0 : ℚ :=
    if 0 ≤ node_p (nodes.getD i nodeD) then
      (1 + 100 * |r| ^ 3 + node_p (nodes.getD i nodeD)) ^ 3
    else if is_forced_break nodes i then
      (1 + 100 * |r| ^ 3) ^ 2 - node_p (nodes.getD i nodeD) ^ 2
    else (1 + 100 * |r| ^ 3) ^ 2
  let d1 : ℚ :=
    if node_f (nodes.getD i nodeD) ∧ node_f (nodes.getD a.position nodeD) then
      d0 + flagged_demerit
    else d0
  let fc : ℤ := fitness_of r
  let d2 : ℚ := if 1 < |fc - a.fitness_class| then d1 + fitness_demerit else d1
  Breakpoint.mk i (a.line + 1) fc (sum_widths nodes i) (sum_stretch nodes i)
    (sum_shrink nodes i) (truncQ d2) none

/-- The while loop over the active list at par-box.h lines 305-352 for one
feasible position `i`: each active node with `r < -1` or at a forced break is
erased; every surviving active node contributes a candidate when the C++
condition `-1 <= r <= tolerance` holds — which, by C++ chained-comparison
semantics, parses as `((-1 <= r) ? 1.0 : 0.0) <= tolerance`. Returns the
surviving active nodes and the recorded candidates, both in traversal order. -/
def scan_active (nodes : List LNode) (line_lengths : List ℚ)
    (tolerance fitness_demerit flagged_demerit : ℚ) (i : ℕ) :
    List Breakpoint → List Breakpoint × List Breakpoint
  | [] => ([], [])
  | a :: rest =>
    let r := compute_adjustment_ratio nodes a.position i a.line line_lengths
    if r < -1 ∨ is_forced_break nodes i = true then
      scan_active nodes line_lengths tolerance fitness_demerit flagged_demerit i rest
    else
      let res := scan_active nodes line_lengths tolerance fitness_demerit flagged_demerit i rest
      if (if (-1 : ℚ) ≤ r then (1 : ℚ) else 0) ≤ tolerance then
        (a :: res.1, mk_candidate nodes fitness_demerit flagged_demerit i a r :: res.2)
      else (a :: res.1, res.2)

/-- The minimum-demerits search of par-box.h lines 362-375: start with the
first node and replace the running minimum only on a strictly smaller demerits
value (first-seen wins on ties). -/
def find_min (best : Breakpoint) : List Breakpoint → Breakpoint
  | [] => best
  | b :: rest => if b.demerits < best.demerits then find_min b rest else find_min best rest

/-- One iteration of the main loop of `ParBox::compute_breaks` (par-box.h lines
296-389) at position `i`: if `i` is feasible, run the active-list scan and merge
all recorded candidates via `add_active_node`; then find the active node with
minimum demerits and rebuild the break list by walking its predecessor chain
and reversing. Returns `none` when the updated active list is empty: the C++
then dereferences the begin iterator of an empty `std::list` (undefined
behavior — the TODO at lines 360-361 records that this case is unhandled). -/
def kp_step (nodes : List LNode) (line_lengths : List ℚ)
    (tolerance fitness_demerit flagged_demerit : ℚ) (i : ℕ)
    (active : List Breakpoint) : Option (List Breakpoint × List ℕ) :=
  let active' :=
    if is_feasible_breakpoint nodes i then
      let res := scan_active nodes line_lengths tolerance fitness_demerit flagged_demerit i active
      res.2.foldl add_active_node res.1
    else active
  match active' with
  | [] => none
  | a :: rest =>
    some (active', ((chain_positions (find_min a rest)).reverse))

/-- The state of `compute_breaks` after scanning positions `0, …, k-1`: the
active list together with the `final_breaks` vector computed in the last
iteration (`[]` before the first iteration, where the C++ vector does not yet
exist). `none` models the undefined empty-active-list dereference. -/
def kp_states (nodes : List LNode) (line_lengths : List ℚ)
    (tolerance fitness_demerit flagged_demerit : ℚ) (k : ℕ) :
    Option (List Breakpoint × List ℕ) :=
  (List.range k).foldl
    (fun st i =>
      st.bind (fun s => kp_step nodes line_lengths tolerance fitness_demerit flagged_demerit i s.1))
    (some ([bp0], []))

/-- `ParBox::compute_breaks` (par-box.h lines 234-390). The empty node list
returns an empty break list (line 240). On the non-empty path the C++ function
ends without a return statement (the TODO at lines 387-388 — "Need to return
the final result" — records this); we model its result as the `final_breaks`
vector computed in the last loop iteration, the only value the loop produces.
`none` models the undefined dereference that occurs when the active list has
become empty. -/
def compute_breaks (nodes : List LNode) (line_lengths : List ℚ)
    (tolerance fitness_demerit flagged_demerit : ℚ) : Option (List ℕ) :=
  if nodes.length = 0 then some []
  else
    (kp_states nodes line_lengths tolerance fitness_demerit flagged_demerit nodes.length).map
      (fun s => s.2)

/-- The mutable locals of `ParBox::calc_layout` (par-box.h lines 97-134):
running offsets, line counter, first-line ascent and current-line descent.
The `placements` component records, in order, the `(x, y)` arguments of the
`place` call issued for each box child. -/
structure LayoutState where
  x_off : ℚ
  y_off : ℚ
  lines : ℕ
  ascent : ℚ
  descent : ℚ
  placements : List (ℚ × ℚ)

/-- The loop body of `ParBox::calc_layout` (par-box.h lines 105-134) for one
child node. Box children: wrap when appending would exceed `width_hint` (reset
the horizontal offset, move down one `vspacing`, bump the line counter, reset
the running descent), place the child, advance by its width plus `hspacing`,
and record the running descent and — on the first line only — the running
ascent. Glue children are explicitly not implemented; penalty children match
neither branch. -/
def layout_step (vspacing hspacing width_hint : ℚ) (s : LayoutState) (n : LNode) :
    LayoutState :=
  match n with
  | LNode.box w a d =>
    let s1 :=
      if width_hint < s.x_off + w then
        { s with x_off := 0, y_off := s.y_off - vspacing,
                 lines := s.lines + 1, descent := 0 }
      else s
    { s1 with
      placements := s1.placements ++ [(s1.x_off, s1.y_off)],
      x_off := s1.x_off + w + hspacing,
      descent := if s1.descent < d then d else s1.descent,
      ascent := if s1.lines = 0 ∧ s1.ascent < a then a else s1.ascent }
  | _ => s

/-- The outputs of `ParBox::calc_layout` (par-box.h lines 135-138): multiline
shift, ascent, descent, width, plus the final line counter and the recorded
child placements. -/
structure ParLayout where
  multiline_shift : ℚ
  ascent : ℚ
  descent : ℚ
  width : ℚ
  lines : ℕ
  placements : List (ℚ × ℚ)

/-- `ParBox::calc_layout` (par-box.h lines 97-139): walk the children with
`layout_step`, then set `m_multiline_shift = lines * vspacing`,
`m_ascent = ascent + m_multiline_shift`, `m_descent = descent`, and
`m_width = width_hint`. The `height_hint` argument is only propagated to the
children and otherwise unused. -/
def calc_layout (nodes : List LNode) (vspacing hspacing width_hint height_hint : ℚ) :
    ParLayout :=
  let s := nodes.foldl (layout_step vspacing hspacing width_hint)
    ⟨0, 0, 0, 0, 0, []⟩
  ⟨(s.lines : ℚ) * vspacing, s.ascent + (s.lines : ℚ) * vspacing, s.descent,
    width_hint, s.lines, s.placements⟩

/-- Observation of a breakpoint used to state concrete evaluations: position,
line, fitness class, demerits, and the predecessor-chain positions. -/
def bp_view (b : Breakpoint) : ℕ × ℕ × ℤ × ℤ × List ℕ :=
  (b.position, b.line, b.fitness_class, b.demerits, chain_positions b)

/-- `kp_states`, observed through `bp_view`. -/
def active_view (nodes : List LNode) (line_lengths : List ℚ)
    (tolerance fitness_demerit flagged_demerit : ℚ) (k : ℕ) :
    Option (List (ℕ × ℕ × ℤ × ℤ × List ℕ) × List ℕ) :=
  (kp_states nodes line_lengths tolerance fitness_demerit flagged_demerit k).map
    (fun s => (s.1.map bp_view, s.2))

/-- Concrete node list realizing the spec's worked adjustment-ratio example: a
line of total content width 90 (box 80 plus glue 10) with total stretch 20,
measured against available width 100. -/
def c6_nodes : List LNode :=
  [LNode.box 80 0 0, LNode.glue 10 20 0, LNode.box 40 0 0]

/-- Two breakpoints agree on the (line number, fitness class, position) triple
used for deduplication in `add_active_node`. -/
def same_triple (x y : Breakpoint) : Prop :=
  x.line = y.line ∧ x.fitness_class = y.fitness_class ∧ x.position = y.position

lemma same_triple_symm {x y : Breakpoint} (h : same_triple x y) : same_triple y x :=
  ⟨h.1.symm, h.2.1.symm, h.2.2.symm⟩

lemma mem_of_mem_add_active_node {l : List Breakpoint} {n x : Breakpoint}
    (hx : x ∈ add_active_node l n) : x ∈ l ∨ x = n := by
  induction l with
  | nil =>
    simp only [add_active_node, List.mem_singleton] at hx
    exact Or.inr hx
  | cons b rest ih =>
    simp only [add_active_node] at hx
    split_ifs at hx with h1 h2
    · rcases List.mem_cons.mp hx with rfl | hx2
      · exact Or.inl (List.mem_cons_self _ _)
      · rcases ih hx2 with h | h
        · exact Or.inl (List.mem_cons_of_mem _ h)
        · exact Or.inr h
    · exact Or.inl hx
    · rcases List.mem_cons.mp hx with rfl | hx2
      · exact Or.inr rfl
      · exact Or.inl hx2

lemma add_active_node_sorted {l : List Breakpoint} {n : Breakpoint}
    (h : l.Pairwise (fun x y => x.line ≤ y.line)) :
    (add_active_node l n).Pairwise (fun x y => x.line ≤ y.line) := by
  induction l with
  | nil => simp [add_active_node]
  | cons b rest ih =>
    rcases List.pairwise_cons.mp h with ⟨hb, hrest⟩
    simp only [add_active_node]
    split_ifs with h1 h2
    · refine List.pairwise_cons.mpr ⟨?_, ih hrest⟩
      intro x hx
      rcases mem_of_mem_add_active_node hx with hxm | rfl
      · exact hb x hxm
      · exact le_of_lt h1
    · exact h
    · refine List.pairwise_cons.mpr ⟨?_, h⟩
      intro x hx
      rcases List.mem_cons.mp hx with rfl | hxm
      · exact le_of_not_lt h1
      · exact le_trans (le_of_not_lt h1) (hb x hxm)

lemma has_dup_node_eq_true {n : Breakpoint} {l : List Breakpoint}
    (hsort : l.Pairwise (fun x y => x.line ≤ y.line))
    (hge : ∀ x ∈ l, n.line ≤ x.line) {x : Breakpoint} (hx : x ∈ l)
    (ht : same_triple x n) : has_dup_node n l = true := by
  induction l with
  | nil => cases hx
  | cons b rest ih =>
    rcases List.pairwise_cons.mp hsort with ⟨hb, hrest⟩
    simp only [has_dup_node]
    rcases List.mem_cons.mp hx with rfl | hxm
    · rw [if_pos ht.1, if_pos ⟨ht.2.1, ht.2.2⟩]
    · have hbn : b.line = n.line :=
        le_antisymm (ht.1 ▸ hb x hxm) (hge b (List.mem_cons_self _ _))
      rw [if_pos hbn]
      split_ifs with h2
      · rfl
      · exact ih hrest (fun y hy => hge y (List.mem_cons_of_mem _ hy)) hxm

lemma no_triple_of_has_dup_node_eq_false {n : Breakpoint} {l : List Breakpoint}
    (hsort : l.Pairwise (fun x y => x.line ≤ y.line))
    (hge : ∀ x ∈ l, n.line ≤ x.line) (hdup : has_dup_node n l = false) :
    ∀ x ∈ l, ¬ same_triple x n := by
  intro x hx ht
  rw [has_dup_node_eq_true hsort hge hx ht] at hdup
  cases hdup

lemma add_active_node_nodup {l : List Breakpoint} {n : Breakpoint}
    (hsort : l.Pairwise (fun x y => x.line ≤ y.line))
    (hnd : l.Pairwise (fun x y => ¬ same_triple x y)) :
    (add_active_node l n).Pairwise (fun x y => ¬ same_triple x y) := by
  induction l with
  | nil => simp [add_active_node]
  | cons b rest ih =>
    rcases List.pairwise_cons.mp hsort with ⟨hbs, hrests⟩
    rcases List.pairwise_cons.mp hnd with ⟨hbn, hrestn⟩
    simp only [add_active_node]
    split_ifs with h1 h2
    · refine List.pairwise_cons.mpr ⟨?_, ih hrests hrestn⟩
      intro x hx
      rcases mem_of_mem_add_active_node hx with hxm | rfl
      · exact hbn x hxm
      · intro ht
        exact absurd ht.1 (ne_of_lt h1)
    · exact hnd
    · have hge : ∀ x ∈ b :: rest, n.line ≤ x.line := by
        intro x hx
        rcases List.mem_cons.mp hx with rfl | hxm
        · exact le_of_not_lt h1
        · exact le_trans (le_of_not_lt h1) (hbs x hxm)
      have hno : ∀ x ∈ b :: rest, ¬ same_triple x n :=
        no_triple_of_has_dup_node_eq_false hsort hge (Bool.of_not_eq_true h2)
      refine List.pairwise_cons.mpr ⟨?_, hnd⟩
      intro x hx ht
      exact hno x hx (same_triple_symm ht)

lemma add_active_node_eq_of_dup {l : List Breakpoint} {n : Breakpoint}
    (hsort : l.Pairwise (fun x y => x.line ≤ y.line)) {x : Breakpoint}
    (hx : x ∈ l) (ht : same_triple x n) : add_active_node l n = l := by
  induction l with
  | nil => cases hx
  | cons b rest ih =>
    rcases List.pairwise_cons.mp hsort with ⟨hbs, hrests⟩
    simp only [add_active_node]
    rcases List.mem_cons.mp hx with rfl | hxm
    · rw [if_neg (by rw [ht.1]; exact lt_irrefl _),
        if_pos (has_dup_node_eq_true hsort (fun y hy => ?_) hx ht)]
      rcases List.mem_cons.mp hy with rfl | hym
      · exact le_of_eq ht.1.symm
      · exact le_trans (le_of_eq ht.1.symm) (hbs y hym)
    · by_cases h1 : b.line < n.line
      · rw [if_pos h1, ih hrests hxm]
      · have hge : ∀ y ∈ b :: rest, n.line ≤ y.line := by
          intro y hy
          rcases List.mem_cons.mp hy with rfl | hym
          · exact le_of_not_lt h1
          · exact le_trans (le_of_not_lt h1) (hbs y hym)
        rw [if_neg h1, if_pos (has_dup_node_eq_true hsort hge hx ht)]

lemma scan_active_fst_sublist (nodes : List LNode) (ll : List ℚ)
    (tol fd flagd : ℚ) (i : ℕ) (active : List Breakpoint) :
    (scan_active nodes ll tol fd flagd i active).1.Sublist active := by
  induction active with
  | nil => simp [scan_active]
  | cons a rest ih =>
    simp only [scan_active]
    split_ifs <;>
      first
      | exact List.Sublist.cons a ih
      | exact List.Sublist.cons₂ a ih

lemma foldl_add_active_inv (brks : List Breakpoint) :
    ∀ acc : List Breakpoint, acc.Pairwise (fun x y => x.line ≤ y.line) →
    acc.Pairwise (fun x y => ¬ same_triple x y) →
    (brks.foldl add_active_node acc).Pairwise (fun x y => x.line ≤ y.line) ∧
    (brks.foldl add_active_node acc).Pairwise (fun x y => ¬ same_triple x y) := by
  induction brks with
  | nil =>
    intro acc hs hn
    exact ⟨hs, hn⟩
  | cons c cs ih =>
    intro acc hs hn
    simp only [List.foldl_cons]
    exact ih _ (add_active_node_sorted hs) (add_active_node_nodup hs hn)

lemma kp_step_inv {nodes : List LNode} {ll : List ℚ} {tol fd flagd : ℚ} {i : ℕ}
    {active act : List Breakpoint} {fb : List ℕ}
    (hstep : kp_step nodes ll tol fd flagd i active = some (act, fb))
    (hs : active.Pairwise (fun x y => x.line ≤ y.line))
    (hn : active.Pairwise (fun x y => ¬ same_triple x y)) :
    act.Pairwise (fun x y => x.line ≤ y.line) ∧
    act.Pairwise (fun x y => ¬ same_triple x y) := by
  simp only [kp_step] at hstep
  have hinv :
      (if is_feasible_breakpoint nodes i then
        ((scan_active nodes ll tol fd flagd i active).2.foldl add_active_node
          (scan_active nodes ll tol fd flagd i active).1)
      else active).Pairwise (fun x y => x.line ≤ y.line) ∧
      (if is_feasible_breakpoint nodes i then
        ((scan_active nodes ll tol fd flagd i active).2.foldl add_active_node
          (scan_active nodes ll tol fd flagd i active).1)
      else active).Pairwise (fun x y => ¬ same_triple x y) := by
    split_ifs with hf
    · have hsub := scan_active_fst_sublist nodes ll tol fd flagd i active
      exact foldl_add_active_inv _ _ (hs.sublist hsub) (hn.sublist hsub)
    · exact ⟨hs, hn⟩
  rcases hlist : (if is_feasible_breakpoint nodes i then
      ((scan_active nodes ll tol fd flagd i active).2.foldl add_active_node
        (scan_active nodes ll tol fd flagd i active).1)
    else active) with _ | ⟨a, rest⟩
  · rw [hlist] at hstep
    cases hstep
  · rw [hlist] at hstep
    simp only [Option.some.injEq, Prod.mk.injEq] at hstep
    rw [hlist] at hinv
    rw [← hstep.1]
    exact hinv

lemma kp_foldl_inv (nodes : List LNode) (ll : List ℚ) (tol fd flagd : ℚ) :
    ∀ (idxs : List ℕ) (st : Option (List Breakpoint × List ℕ)),
    (∀ a f, st = some (a, f) → a.Pairwise (fun x y => x.line ≤ y.line) ∧
      a.Pairwise (fun x y => ¬ same_triple x y)) →
    ∀ act fb,
      idxs.foldl (fun st2 i =>
        st2.bind (fun s => kp_step nodes ll tol fd flagd i s.1)) st = some (act, fb) →
      act.Pairwise (fun x y => x.line ≤ y.line) ∧
      act.Pairwise (fun x y => ¬ same_triple x y) := by
  intro idxs
  induction idxs with
  | nil =>
    intro st hst act fb h
    exact hst act fb h
  | cons i is ih =>
    intro st hst act fb h
    simp only [List.foldl_cons] at h
    refine ih _ ?_ act fb h
    intro a f hde
    rcases Option.bind_eq_some.mp hde with ⟨s, hs0, hstep⟩
    obtain ⟨h1, h2⟩ := hst s.1 s.2 (by rw [hs0])
    exact kp_step_inv hstep h1 h2

lemma kp_states_inv {nodes : List LNode} {ll : List ℚ} {tol fd flagd : ℚ} {k : ℕ}
    {act : List Breakpoint} {fb : List ℕ}
    (h : kp_states nodes ll tol fd flagd k = some (act, fb)) :
    act.Pairwise (fun x y => x.line ≤ y.line) ∧
    act.Pairwise (fun x y => ¬ same_triple x y) := by
  refine kp_foldl_inv nodes ll tol fd flagd (List.range k) (some ([bp0], [])) ?_ act fb h
  intro a f heq
  simp only [Option.some.injEq, Prod.mk.injEq] at heq
  rw [← heq.1]
  simp

/-- Whether a layout node is a box, used to locate the first box child. -/
def is_box_node : LNode → Bool
  | LNode.box _ _ _ => true
  | _ => false

lemma if_accum_eq_max {x y : ℚ} (hx : 0 ≤ x) (hy : 0 ≤ y) :
    (if (if 0 < x then x else 0) < y then y else if 0 < x then x else 0) = max x y := by
  rcases lt_or_le 0 x with h | h
  · rw [if_pos h]
    rcases lt_or_le x y with h2 | h2
    · rw [if_pos h2, max_eq_right h2.le]
    · rw [if_neg (not_lt.mpr h2), max_eq_left h2]
  · have hx0 : x = 0 := le_antisymm h hx
    subst hx0
    rcases lt_or_le 0 y with h2 | h2
    · simp only [if_neg (lt_irrefl (0 : ℚ))]
      rw [if_pos h2, max_eq_right hy]
    · have hy0 : y = 0 := le_antisymm h2 hy
      subst hy0
      simp

lemma layout_step_nonbox {v hsp wh : ℚ} {s : LayoutState} {n : LNode}
    (h : is_box_node n = false) : layout_step v hsp wh s n = s := by
  cases n with
  | box w a d => cases h
  | glue w a d => rfl
  | penalty w c fl => rfl

lemma foldl_layout_nonbox {v hsp wh : ℚ} {pre : List LNode}
    (h : ∀ n ∈ pre, is_box_node n = false) (s : LayoutState) :
    pre.foldl (layout_step v hsp wh) s = s := by
  induction pre with
  | nil => rfl
  | cons n rest ih =>
    rw [List.foldl_cons, layout_step_nonbox (h n (List.mem_cons_self _ _))]
    exact ih (fun m hm => h m (List.mem_cons_of_mem _ hm))

lemma foldl_layout_lines_ascent {v hsp wh : ℚ} (l : List LNode) :
    ∀ s : LayoutState, 1 ≤ s.lines →
    1 ≤ (l.foldl (layout_step v hsp wh) s).lines ∧
    (l.foldl (layout_step v hsp wh) s).ascent = s.ascent := by
  induction l with
  | nil =>
    intro s hs
    exact ⟨hs, rfl⟩
  | cons n rest ih =>
    intro s hs
    rw [List.foldl_cons]
    cases n with
    | box w a d =>
      by_cases hwrap : wh < s.x_off + w
      · refine (ih _ ?_).imp id (fun h => h.trans ?_)
        · simp only [layout_step, if_pos hwrap]
          exact le_trans hs (Nat.le_succ _)
        · simp only [layout_step, if_pos hwrap]
          rw [if_neg]
          rintro ⟨h0, _⟩
          omega
      · refine (ih _ ?_).imp id (fun h => h.trans ?_)
        · simp only [layout_step, if_neg hwrap]
          exact hs
        · simp only [layout_step, if_neg hwrap]
          rw [if_neg]
          rintro ⟨h0, _⟩
          omega
    | glue w a d => exact ih s hs
    | penalty w c fl => exact ih s hs

/-- C1. The claim says `compute_breaks` returns, for every non-empty node
list, a strictly increasing sequence of break positions, each greater than 0,
ending at the index of the last node. Evaluation at the single-box node list
refutes this: the break list computed by the scan is `[0]` — it contains the
sentinel position 0, which is not greater than 0 — and in the C++ the
function moreover ends without ever returning it (the TODO at par-box.h lines
387-388 records the missing return). -/
theorem claim_C1 :
    compute_breaks [LNode.box 10 0 0] [100] 1 100 100 = some [0] := by
  norm_num [compute_breaks, kp_states, kp_step, is_feasible_breakpoint, nodeD,
    List.range_succ, scan_active, find_min, chain_positions, bp0,
    Breakpoint.demerits, Breakpoint.position]

/-- C2. The claim says a qualifying candidate extending active breakpoint `a`
at position `i` is recorded with cumulative demerits `a.demerits` plus the
line's demerits and with predecessor `a`, and that the final break list is the
reversed predecessor chain of the winner. Evaluation refutes this: after
scanning positions 0-3 of the node list below, the candidate at position 3 —
which extends the active breakpoint at position 1 whose demerits are 1, with a
new line of demerits 1 — is recorded with demerits 1 (not 1 + 1 = 2) and with
predecessor-chain positions `[3]` (a null predecessor, not the chain through
position 1 and the sentinel), because the constructor call at par-box.h lines
345-349 passes the line's demerits alone and omits the predecessor argument. -/
theorem claim_C2 :
    active_view [LNode.box 10 0 0, LNode.glue 0 5 5, LNode.box 10 0 0,
      LNode.glue 0 5 5, LNode.box 10 0 0] [10] 1 100 100 4 =
    some ([(1, 1, 1, 1, [1]), (3, 2, 1, 1, [3])], [1]) := by
  norm_num [active_view, kp_states, kp_step, is_feasible_breakpoint, is_forced_break,
    nodeD, infinity, List.range_succ, scan_active, find_min, chain_positions, bp0,
    compute_adjustment_ratio, adj_len, avail_len, measure_width, measure_stretch,
    measure_shrink, sum_widths, sum_stretch, sum_shrink, node_w, node_y, node_z,
    node_p, node_f, mk_candidate, fitness_of, truncQ, add_active_node, has_dup_node,
    bp_view, Breakpoint.demerits, Breakpoint.position, Breakpoint.line,
    Breakpoint.fitness_class]

/-- C3. The claim says a surviving active breakpoint records a new candidate if
and only if the adjustment ratio lies in `[-1, tolerance]`. Evaluation refutes
this: with tolerance 1/2, the line from the sentinel to position 1 has
adjustment ratio 0 ∈ [-1, 1/2], yet after scanning positions 0-1 the active
list still contains only the sentinel — no candidate was recorded — because
the C++ condition `-1 <= r <= tolerance` (par-box.h line 317) parses as
`((-1 <= r) ? 1.0 : 0.0) <= tolerance`, which is false whenever
`tolerance < 1`. -/
theorem claim_C3 :
    compute_adjustment_ratio [LNode.box 10 0 0, LNode.glue 0 10 0, LNode.box 10 0 0]
      0 1 0 [10] = 0 ∧
    active_view [LNode.box 10 0 0, LNode.glue 0 10 0, LNode.box 10 0 0]
      [10] (1/2) 100 100 2 = some ([(0, 0, 1, 0, [0])], [0]) := by
  constructor
  · norm_num [ compute_adjustment_ratio, adj_len, avail_len, measure_width,
      measure_stretch, measure_shrink, sum_widths, sum_stretch, sum_shrink,
      node_w, node_y, node_z, nodeD]
  · norm_num [active_view, kp_states, kp_step, is_feasible_breakpoint, is_forced_break,
      nodeD, infinity, List.range_succ, scan_active, find_min, chain_positions, bp0,
      compute_adjustment_ratio, adj_len, avail_len, measure_width, measure_stretch,
      measure_shrink, sum_widths, sum_stretch, sum_shrink, node_w, node_y, node_z,
      node_p, node_f, mk_candidate, fitness_of, truncQ, add_active_node, has_dup_node,
      bp_view, Breakpoint.demerits, Breakpoint.position, Breakpoint.line,
      Breakpoint.fitness_class]

/-- C4. The claim says that when the active breakpoint set becomes empty before
the end of the scan, the engine reports an explicit NoFeasibleBreak failure.
Evaluation of the model shows the run instead aborts into the value that
models the C++'s undefined behavior: at the forced break at position 1 every
active node is erased, and the minimum-demerits search at par-box.h lines
362-363 then dereferences the begin iterator of the empty list (the TODO at
lines 360-361 records that this case is unhandled) — no error value or report
of any kind exists in the code. -/
theorem claim_C4 :
    compute_breaks [LNode.box 10 0 0, LNode.penalty 0 (-10000) false, LNode.box 10 0 0]
      [100] 1 100 100 = none := by
  norm_num [compute_breaks, kp_states, kp_step, is_feasible_breakpoint, is_forced_break,
    nodeD, infinity, List.range_succ, scan_active, find_min, chain_positions, bp0,
    compute_adjustment_ratio, adj_len, avail_len, measure_width, measure_stretch,
    measure_shrink, sum_widths, sum_stretch, sum_shrink, node_w, node_y, node_z,
    Breakpoint.demerits, Breakpoint.position, Breakpoint.line]

/-- C5. The claim says the break sequence returned by `compute_breaks` contains
the position of every forced break. Evaluation refutes this: for the node list
below with a forced break (penalty -10000 ≤ -infinity) at position 1, the scan
erases every active node at the forced break without recording any candidate
there (par-box.h lines 309-314), so position 1 is never recorded, and the run
then aborts on the emptied active list — the result is the undefined-behavior
value, and no break list containing position 1 is ever produced. -/
theorem claim_C5 :
    compute_breaks [LNode.box 5 0 0, LNode.penalty 0 (-10000) false, LNode.box 5 0 0]
      [100] 1 100 100 = none := by
  norm_num [compute_breaks, kp_states, kp_step, is_feasible_breakpoint, is_forced_break,
    nodeD, infinity, List.range_succ, scan_active, find_min, chain_positions, bp0,
    compute_adjustment_ratio, adj_len, avail_len, measure_width, measure_stretch,
    measure_shrink, sum_widths, sum_stretch, sum_shrink, node_w, node_y, node_z,
    Breakpoint.demerits, Breakpoint.position, Breakpoint.line]

/-- C6. `compute_adjustment_ratio` returns `(avail - len) / stretch_sum` when
`len < avail` with positive stretch, the `infinity` sentinel when `len < avail`
with zero stretch, `(avail - len) / shrink_sum` when `len > avail` with
positive shrink, the `infinity` sentinel when `len > avail` with zero shrink,
and 0 when `len = avail`, where `avail` is `line_lengths[line]` when `line` is
in range and otherwise the last entry; and on the spec's worked example — a
line of content width 90 against available width 100 with total stretch 20 —
the ratio is 1/2, which lands in fitness class 1. -/
theorem claim_C6 (nodes : List LNode) (i1 i2 line : ℕ) (ll : List ℚ)
    (hll : ll ≠ []) :
    (adj_len nodes i1 i2 < avail_len ll line → 0 < measure_stretch nodes i1 i2 →
      compute_adjustment_ratio nodes i1 i2 line ll =
        (avail_len ll line - adj_len nodes i1 i2) / measure_stretch nodes i1 i2) ∧
    (adj_len nodes i1 i2 < avail_len ll line → measure_stretch nodes i1 i2 = 0 →
      compute_adjustment_ratio nodes i1 i2 line ll = infinity) ∧
    (avail_len ll line < adj_len nodes i1 i2 → 0 < measure_shrink nodes i1 i2 →
      compute_adjustment_ratio nodes i1 i2 line ll =
        (avail_len ll line - adj_len nodes i1 i2) / measure_shrink nodes i1 i2) ∧
    (avail_len ll line < adj_len nodes i1 i2 → measure_shrink nodes i1 i2 = 0 →
      compute_adjustment_ratio nodes i1 i2 line ll = infinity) ∧
    (adj_len nodes i1 i2 = avail_len ll line →
      compute_adjustment_ratio nodes i1 i2 line ll = 0) ∧
    (line < ll.length → avail_len ll line = ll.getD line 0) ∧
    (¬ line < ll.length → avail_len ll line = ll.getLastD 0) ∧
    compute_adjustment_ratio c6_nodes 0 2 0 [100] = 1 / 2 ∧
    fitness_of (1 / 2) = 1 := by
  refine ⟨?_, ?_, ?_, ?_, ?_, ?_, ?_, ?_, ?_⟩
  · intro h1 h2
    simp only [ compute_adjustment_ratio]
    rw [if_pos h1, if_pos h2]
  · intro h1 h2
    simp only [ compute_adjustment_ratio]
    rw [if_pos h1, if_neg (by rw [h2]; exact lt_irrefl 0)]
  · intro h1 h2
    simp only [ compute_adjustment_ratio]
    rw [if_neg (not_lt.mpr h1.le), if_pos h1, if_pos h2]
  · intro h1 h2
    simp only [ compute_adjustment_ratio]
    rw [if_neg (not_lt.mpr h1.le), if_pos h1, if_neg (by rw [h2]; exact lt_irrefl 0)]
  · intro h1
    simp only [ compute_adjustment_ratio]
    rw [h1]
    simp
  · intro h1
    simp [avail_len, h1]
  · intro h1
    simp [avail_len, h1]
  · norm_num [ compute_adjustment_ratio, adj_len, avail_len, measure_width,
      measure_stretch, measure_shrink, sum_widths, sum_stretch, sum_shrink,
      node_w, node_y, node_z, nodeD, c6_nodes]
  · norm_num [fitness_of]

/-- Witness for C6 at the spec's worked example (nodes `c6_nodes`, line span
0-2, line 0, line lengths `[100]`), with the nonempty-line-lengths hypothesis
discharged. -/
theorem claim_C6_witness :
    (([100] : List ℚ) ≠ []) ∧
    ((adj_len c6_nodes 0 2 < avail_len [100] 0 → 0 < measure_stretch c6_nodes 0 2 →
      compute_adjustment_ratio c6_nodes 0 2 0 [100] =
        (avail_len [100] 0 - adj_len c6_nodes 0 2) / measure_stretch c6_nodes 0 2) ∧
    (adj_len c6_nodes 0 2 < avail_len [100] 0 → measure_stretch c6_nodes 0 2 = 0 →
      compute_adjustment_ratio c6_nodes 0 2 0 [100] = infinity) ∧
    (avail_len [100] 0 < adj_len c6_nodes 0 2 → 0 < measure_shrink c6_nodes 0 2 →
      compute_adjustment_ratio c6_nodes 0 2 0 [100] =
        (avail_len [100] 0 - adj_len c6_nodes 0 2) / measure_shrink c6_nodes 0 2) ∧
    (avail_len [100] 0 < adj_len c6_nodes 0 2 → measure_shrink c6_nodes 0 2 = 0 →
      compute_adjustment_ratio c6_nodes 0 2 0 [100] = infinity) ∧
    (adj_len c6_nodes 0 2 = avail_len [100] 0 →
      compute_adjustment_ratio c6_nodes 0 2 0 [100] = 0) ∧
    (0 < ([100] : List ℚ).length → avail_len [100] 0 = ([100] : List ℚ).getD 0 0) ∧
    (¬ 0 < ([100] : List ℚ).length → avail_len [100] 0 = ([100] : List ℚ).getLastD 0) ∧
    compute_adjustment_ratio c6_nodes 0 2 0 [100] = 1 / 2 ∧
    fitness_of (1 / 2) = 1) :=
  ⟨by simp, claim_C6 c6_nodes 0 2 0 [100] (by simp)⟩

/-- C8. For every node list and in-range index `i`, `is_feasible_breakpoint`
returns true if and only if node `i` is a penalty whose cost is strictly below
the `infinity` sentinel, or `i > 0`, node `i` is glue, and node `i-1` is a
box. -/
theorem claim_C8 (nodes : List LNode) (i : ℕ) (hi : i < nodes.length) :
    is_feasible_breakpoint nodes i = true ↔
      ((∃ w p fl, nodes.getD i nodeD = LNode.penalty w p fl ∧ p < infinity) ∨
       (0 < i ∧ (∃ w s sh, nodes.getD i nodeD = LNode.glue w s sh) ∧
        (∃ w a d, nodes.getD (i - 1) nodeD = LNode.box w a d))) := by
  cases h : nodes.getD i nodeD with
  | box w a d =>
    unfold is_feasible_breakpoint
    rw [h]
    simp
  | glue w s sh =>
    unfold is_feasible_breakpoint
    rw [h]
    by_cases hip : 0 < i
    · cases h2 : nodes.getD (i - 1) nodeD with
      | box w2 a2 d2 => simp [hip]
      | glue w2 s2 sh2 => simp [hip]
      | penalty w2 p2 f2 => simp [hip]
    · simp [hip]
  | penalty w p fl =>
    unfold is_feasible_breakpoint
    rw [h]
    simp only [decide_eq_true_eq]
    constructor
    · intro hp
      exact Or.inl ⟨w, p, fl, rfl, hp⟩
    · rintro (⟨w1, p1, fl1, heq, hlt⟩ | ⟨hip, ⟨w1, s1, sh1, heq⟩, hbox⟩)
      · cases heq
        exact hlt
      · cases heq

/-- Witness for C8 at index 1 of a two-node list (glue preceded by a box),
with the in-range hypothesis discharged. -/
theorem claim_C8_witness :
    1 < ([LNode.box 1 2 3, LNode.glue 4 0 0] : List LNode).length ∧
    (is_feasible_breakpoint [LNode.box 1 2 3, LNode.glue 4 0 0] 1 = true ↔
      ((∃ w p fl, ([LNode.box 1 2 3, LNode.glue 4 0 0] : List LNode).getD 1 nodeD =
          LNode.penalty w p fl ∧ p < infinity) ∨
       (0 < 1 ∧
        (∃ w s sh, ([LNode.box 1 2 3, LNode.glue 4 0 0] : List LNode).getD 1 nodeD =
          LNode.glue w s sh) ∧
        (∃ w a d, ([LNode.box 1 2 3, LNode.glue 4 0 0] : List LNode).getD (1 - 1) nodeD =
          LNode.box w a d)))) :=
  ⟨by simp, claim_C8 [LNode.box 1 2 3, LNode.glue 4 0 0] 1 (by simp)⟩

/-- C9. For a paragraph of box children with widths `[30, 40, 20, 50]`,
horizontal spacing 5 and width hint 80, the greedy `calc_layout` wraps after
the second box — the children are placed at `(0,0)`, `(35,0)`, `(0,-v)`,
`(25,-v)`, two lines with one wrap — and the paragraph descent is the maximum
descent over the last line's boxes, the ascent the maximum ascent over the
first line's boxes plus one line-spacing unit of multiline shift, and the
width equals the hint. (Non-negative ascents/descents, as for real boxes.) -/
theorem claim_C9 (v a1 a2 a3 a4 d1 d2 d3 d4 : ℚ)
    (ha1 : 0 ≤ a1) (ha2 : 0 ≤ a2) (hd3 : 0 ≤ d3) (hd4 : 0 ≤ d4) :
    (calc_layout [LNode.box 30 a1 d1, LNode.box 40 a2 d2, LNode.box 20 a3 d3,
      LNode.box 50 a4 d4] v 5 80 0).lines = 1 ∧
    (calc_layout [LNode.box 30 a1 d1, LNode.box 40 a2 d2, LNode.box 20 a3 d3,
      LNode.box 50 a4 d4] v 5 80 0).placements =
      [(0, 0), (35, 0), (0, -v), (25, -v)] ∧
    (calc_layout [LNode.box 30 a1 d1, LNode.box 40 a2 d2, LNode.box 20 a3 d3,
      LNode.box 50 a4 d4] v 5 80 0).ascent = max a1 a2 + v ∧
    (calc_layout [LNode.box 30 a1 d1, LNode.box 40 a2 d2, LNode.box 20 a3 d3,
      LNode.box 50 a4 d4] v 5 80 0).descent = max d3 d4 ∧
    (calc_layout [LNode.box 30 a1 d1, LNode.box 40 a2 d2, LNode.box 20 a3 d3,
      LNode.box 50 a4 d4] v 5 80 0).width = 80 := by
  have h12 := if_accum_eq_max ha1 ha2
  have h34 := if_accum_eq_max hd3 hd4
  norm_num [calc_layout, layout_step, List.foldl, zero_sub]
  rw [h12, h34]
  norm_num

/-- Witness for C9 at concrete geometry (`v = 10`, ascents 1, 2, 3, 4 and
descents 4, 3, 2, 1), with the non-negativity hypotheses discharged. -/
theorem claim_C9_witness :
    (0 : ℚ) ≤ 1 ∧ (0 : ℚ) ≤ 2 ∧ (0 : ℚ) ≤ 2 ∧ (0 : ℚ) ≤ 1 ∧
    ((calc_layout [LNode.box 30 1 4, LNode.box 40 2 3, LNode.box 20 3 2,
      LNode.box 50 4 1] 10 5 80 0).lines = 1 ∧
    (calc_layout [LNode.box 30 1 4, LNode.box 40 2 3, LNode.box 20 3 2,
      LNode.box 50 4 1] 10 5 80 0).placements =
      [(0, 0), (35, 0), (0, -10), (25, -10)] ∧
    (calc_layout [LNode.box 30 1 4, LNode.box 40 2 3, LNode.box 20 3 2,
      LNode.box 50 4 1] 10 5 80 0).ascent = max 1 2 + 10 ∧
    (calc_layout [LNode.box 30 1 4, LNode.box 40 2 3, LNode.box 20 3 2,
      LNode.box 50 4 1] 10 5 80 0).descent = max 2 1 ∧
    (calc_layout [LNode.box 30 1 4, LNode.box 40 2 3, LNode.box 20 3 2,
      LNode.box 50 4 1] 10 5 80 0).width = 80) :=
  ⟨by norm_num, by norm_num, by norm_num, by norm_num,
    by
      have h := claim_C9 10 1 2 3 4 4 3 2 1 (by norm_num) (by norm_num)
        (by norm_num) (by norm_num)
      simpa using h⟩

/-- C10. In the greedy `calc_layout`, the wrap test runs before a box child is
placed. If the first box child (preceded only by non-box children, which leave
the layout state untouched) is already wider than the width hint, the wrap
fires before any box is placed, so the line counter is at least 1 for the rest
of the walk, the ascent accumulator is never written (it is recorded only
while the counter is 0), and the reported paragraph ascent is exactly the
final line count times the vertical spacing. -/
theorem claim_C10 (pre post : List LNode) (w a d v hsp hint hh : ℚ)
    (hpre : ∀ n ∈ pre, is_box_node n = false) (hw : hint < w) :
    1 ≤ (calc_layout (pre ++ LNode.box w a d :: post) v hsp hint hh).lines ∧
    (calc_layout (pre ++ LNode.box w a d :: post) v hsp hint hh).ascent =
      ((calc_layout (pre ++ LNode.box w a d :: post) v hsp hint hh).lines : ℚ) * v := by
  have hwrap : hint < (0 : ℚ) + w := by linarith
  have hstep1 : (layout_step v hsp hint ⟨0, 0, 0, 0, 0, []⟩ (LNode.box w a d)).lines = 1 := by
    simp [layout_step, hw]
  have hstepa : (layout_step v hsp hint ⟨0, 0, 0, 0, 0, []⟩ (LNode.box w a d)).ascent = 0 := by
    simp [layout_step, hw]
  obtain ⟨hl, ha⟩ := foldl_layout_lines_ascent post
    (layout_step v hsp hint ⟨0, 0, 0, 0, 0, []⟩ (LNode.box w a d)) (le_of_eq hstep1.symm)
  constructor
  · simp only [calc_layout, List.foldl_append, List.foldl_cons,
      foldl_layout_nonbox hpre]
    exact hl
  · simp only [calc_layout, List.foldl_append, List.foldl_cons,
      foldl_layout_nonbox hpre]
    rw [ha, hstepa, zero_add]

/-- Witness for C10: one glue child followed by a box of width 90 against hint
80, with the premise hypotheses discharged. -/
theorem claim_C10_witness :
    (∀ n ∈ ([LNode.glue 1 0 0] : List LNode), is_box_node n = false) ∧
    (80 : ℚ) < 90 ∧
    (1 ≤ (calc_layout ([LNode.glue 1 0 0] ++ LNode.box 90 5 5 :: []) 7 2 80 0).lines ∧
     (calc_layout ([LNode.glue 1 0 0] ++ LNode.box 90 5 5 :: []) 7 2 80 0).ascent =
       ((calc_layout ([LNode.glue 1 0 0] ++ LNode.box 90 5 5 :: []) 7 2 80 0).lines : ℚ) * 7) :=
  ⟨by
    intro n hn
    simp only [List.mem_singleton] at hn
    rw [hn]
    rfl,
   by norm_num,
   claim_C10 [LNode.glue 1 0 0] [] 90 5 5 7 2 80 0
     (by
       intro n hn
       simp only [List.mem_singleton] at hn
       rw [hn]
       rfl)
     (by norm_num)⟩

/-- C7. Throughout a run of `compute_breaks` (any prefix of the scan that has
not aborted), the active breakpoint list never contains two entries with the
same (line number, fitness class, position) triple and its entries are sorted
non-decreasingly by line number; moreover, whenever a new candidate duplicates
the triple of an existing entry of a line-sorted active list, `add_active_node`
drops the new candidate and returns the list unchanged (first-seen wins). -/
theorem claim_C7 (nodes : List LNode) (ll : List ℚ) (tol fd flagd : ℚ) (k : ℕ)
    (act : List Breakpoint) (fb : List ℕ)
    (hrun : kp_states nodes ll tol fd flagd k = some (act, fb))
    (l : List Breakpoint) (n : Breakpoint)
    (hsort : l.Pairwise (fun x y => x.line ≤ y.line))
    (hdup : ∃ x ∈ l, same_triple x n) :
    (act.Pairwise (fun x y => x.line ≤ y.line) ∧
     act.Pairwise (fun x y => ¬ same_triple x y)) ∧
    add_active_node l n = l := by
  obtain ⟨x, hx, ht⟩ := hdup
  exact ⟨kp_states_inv hrun, add_active_node_eq_of_dup hsort hx ht⟩

/-- Witness for C7: the one-position run on a single-box list, and a candidate
duplicating the sentinel's (line, fitness class, position) triple — but with
different totals and demerits — being dropped, with all hypotheses
discharged. -/
theorem claim_C7_witness :
    kp_states [LNode.box 10 0 0] [100] 1 100 100 1 = some ([bp0], [0]) ∧
    (([bp0] : List Breakpoint).Pairwise (fun x y => x.line ≤ y.line)) ∧
    (∃ x ∈ ([bp0] : List Breakpoint), same_triple x (Breakpoint.mk 0 0 1 5 5 5 7 none)) ∧
    ((([bp0] : List Breakpoint).Pairwise (fun x y => x.line ≤ y.line) ∧
      ([bp0] : List Breakpoint).Pairwise (fun x y => ¬ same_triple x y)) ∧
     add_active_node [bp0] (Breakpoint.mk 0 0 1 5 5 5 7 none) = [bp0]) := by
  have h1 : kp_states [LNode.box 10 0 0] [100] 1 100 100 1 = some ([bp0], [0]) := by
    norm_num [kp_states, kp_step, is_feasible_breakpoint, nodeD, List.range_succ,
      find_min, chain_positions, bp0]
  have h2 : ([bp0] : List Breakpoint).Pairwise (fun x y => x.line ≤ y.line) := by
    simp
  have h3 : ∃ x ∈ ([bp0] : List Breakpoint),
      same_triple x (Breakpoint.mk 0 0 1 5 5 5 7 none) :=
    ⟨bp0, by simp, ⟨rfl, rfl, rfl⟩⟩
  exact ⟨h1, h2, h3, claim_C7 _ _ _ _ _ _ _ _ h1 _ _ h2 h3⟩

end Gridtext
